import Mathlib

/-
Verification of the gmail-exporter core against its specification.

The Go source is shallowly embedded: pure functions become Lean functions,
machine integers become Nat/Int (the counters involved never overflow an
int64 in the scenarios considered), byte slices become lists of Nat below
256, and side effects (file writes, remote API calls) are reified as data
returned by the embedded operations.  String handling is ASCII-faithful:
the Go code applies Unicode-aware helpers (strings.ToUpper, TrimSpace,
Fields) but every string the claims touch is ASCII, where the embeddings
below coincide with the Go behaviour.
-/

set_option maxHeartbeats 2000000

deriving instance DecidableEq for Except

namespace GmailExporter

/-! ### Go string helpers (package strings / strconv), ASCII-faithful -/

/-- Whitespace recognised by Go `unicode.IsSpace`, restricted to ASCII. -/
def isGoSpace (c : Char) : Bool :=
  c = ' ' || c = '\t' || c = '\n' || c = '\x0b' || c = '\x0c' || c = '\r'

/-- Go `strings.TrimSpace`: drop whitespace from both ends. -/
def trimSpace (s : String) : String :=
  String.mk (((s.data.dropWhile isGoSpace).reverse.dropWhile isGoSpace).reverse)

/-- Go `strings.ToUpper` (ASCII). -/
def toUpperStr (s : String) : String :=
  String.mk (s.data.map Char.toUpper)

/-- Go `strings.ToLower` (ASCII). -/
def toLowerStr (s : String) : String :=
  String.mk (s.data.map Char.toLower)

/-- Accumulator for `strFields`: `cur` holds the current word reversed. -/
def fieldsAux (cur : List Char) : List Char → List String
  | [] => if cur = [] then [] else [String.mk cur.reverse]
  | c :: cs =>
    if isGoSpace c then
      if cur = [] then fieldsAux [] cs
      else String.mk cur.reverse :: fieldsAux [] cs
    else fieldsAux (c :: cur) cs

/-- Go `strings.Fields`: split around runs of whitespace. -/
def strFields (s : String) : List String :=
  fieldsAux [] s.data

/-- Go `strings.Join(parts, " ")`. -/
def joinSpace (parts : List String) : String :=
  String.intercalate " " parts

namespace Filters

/-! ### package filters (src/unnamed/part_002): Config, BuildGmailQuery,
Validate, ParseSize -/

/-- A `time.Time` as used by the filter configuration.  The program builds
these from `YYYY-MM-DD` command-line input, so only the calendar date is
carried; `time.Time.After` on such values is the lexicographic comparison
below, and `Format("2006/01/02")` is the padded rendering below. -/
structure GoTime where
  year : Nat
  month : Nat
  day : Nat
deriving DecidableEq, Repr

/-- `a.After(b)` for date-valued times: strictly later instant. -/
def timeAfter (a b : GoTime) : Bool :=
  if a.year = b.year then
    if a.month = b.month then decide (b.day < a.day)
    else decide (b.month < a.month)
  else decide (b.year < a.year)

/-- Zero-pad to two digits (Go layout `01`, `02`). -/
def pad2 (n : Nat) : String :=
  if n < 10 then "0" ++ toString n else toString n

/-- Zero-pad to four digits (Go layout `2006`). -/
def pad4 (n : Nat) : String :=
  if n < 10 then "000" ++ toString n
  else if n < 100 then "00" ++ toString n
  else if n < 1000 then "0" ++ toString n
  else toString n

/-- Go `t.Format("2006/01/02")`. -/
def formatDate (t : GoTime) : String :=
  pad4 t.year ++ "/" ++ pad2 t.month ++ "/" ++ pad2 t.day

/-- filters.Config: the filter specification.  Field defaults are the Go
zero values. -/
structure Config where
  To : String := ""
  From : String := ""
  Subject : String := ""
  IncludesWords : String := ""
  ExcludesWords : String := ""
  SizeGreaterThan : Int := 0
  SizeLessThan : Int := 0
  DateWithin : Int := 0      -- time.Duration in nanoseconds
  DateAfter : Option GoTime := none
  DateBefore : Option GoTime := none
  HasAttachment : Option Bool := none
  ExcludeChats : Bool := false
  Labels : String := ""
  SearchScope : String := ""

/-- `int(d.Hours() / 24)` for a positive duration `d` in nanoseconds. -/
def durationDays (ns : Int) : Int :=
  ns / 86400000000000

/-- The list of clauses appended by `Config.BuildGmailQuery`, in source
order. -/
def buildParts (c : Config) : List String :=
  (if c.To ≠ "" then ["to:" ++ c.To] else []) ++
  (if c.From ≠ "" then ["from:" ++ c.From] else []) ++
  (if c.Subject ≠ "" then ["subject:(" ++ c.Subject ++ ")"] else []) ++
  (if c.IncludesWords ≠ "" then [c.IncludesWords] else []) ++
  (if c.ExcludesWords ≠ "" then
    (strFields c.ExcludesWords).map (fun w => "-" ++ w) else []) ++
  (if 0 < c.SizeGreaterThan then ["size:" ++ toString c.SizeGreaterThan] else []) ++
  (if 0 < c.SizeLessThan then ["-size:" ++ toString c.SizeLessThan] else []) ++
  (if 0 < c.DateWithin then
    ["newer_than:" ++ toString (durationDays c.DateWithin) ++ "d"] else []) ++
  (match c.DateAfter with
   | some t => ["after:" ++ formatDate t]
   | none => []) ++
  (match c.DateBefore with
   | some t => ["before:" ++ formatDate t]
   | none => []) ++
  (match c.HasAttachment with
   | some true => ["has:attachment"]
   | some false => ["-has:attachment"]
   | none => []) ++
  (if c.ExcludeChats then ["-in:chats"] else []) ++
  (if c.Labels ≠ "" then
    (((c.Labels.data.splitOn ',').map (fun l => trimSpace (String.mk l))).filter
      (fun l => l ≠ "")).map (fun l => "label:" ++ l)
   else []) ++
  (if c.SearchScope ≠ "" ∧ c.SearchScope ≠ "all_mail" then
    ["in:" ++ c.SearchScope] else [])

/-- `Config.BuildGmailQuery`: space-join the clauses. -/
def BuildGmailQuery (c : Config) : String :=
  joinSpace (buildParts c)

/-- The recognised search scopes (`validScopes` in the source). -/
def validScopes : List String :=
  ["all_mail", "inbox", "sent", "drafts", "spam", "trash"]

/-- `Config.Validate`: `some msg` is the returned error, `none` is nil. -/
def Validate (c : Config) : Option String :=
  if 0 < c.SizeGreaterThan ∧ 0 < c.SizeLessThan ∧ c.SizeLessThan ≤ c.SizeGreaterThan then
    some "size-greater-than must be less than size-less-than"
  else if (match c.DateAfter, c.DateBefore with
           | some a, some b => timeAfter a b
           | _, _ => false) then
    some "date-after must be before date-before"
  else if c.SearchScope ≠ "" ∧ ¬ (c.SearchScope ∈ validScopes) then
    some ("invalid search scope: " ++ c.SearchScope ++
      " (valid: " ++ String.intercalate ", " validScopes ++ ")")
  else
    none

/-- The digit/dot scan of `ParseSize`: maximal leading run of `[0-9.]`
characters, and the remainder (the unit). -/
def spanNum : List Char → List Char × List Char
  | [] => ([], [])
  | c :: cs =>
    if ('0' ≤ c ∧ c ≤ '9') ∨ c = '.' then
      let p := spanNum cs
      (c :: p.1, p.2)
    else ([], c :: cs)

/-- Decimal value of a digit string. -/
def digitsVal (cs : List Char) : Nat :=
  cs.foldl (fun a c => a * 10 + (c.toNat - '0'.toNat)) 0

/-- `strconv.ParseFloat` restricted to strings of digits and dots (the only
characters `spanNum` lets through): it succeeds exactly when there is at
least one digit and at most one dot.  The nonnegative decimal value
`ip + fp / 10^k` is carried exactly as the triple `(ip, fp, k)`. -/
def parseFloatDigits (cs : List Char) : Option (Nat × Nat × Nat) :=
  if cs.any Char.isDigit ∧ cs.count '.' ≤ 1 then
    match cs.splitOn '.' with
    | [ip] => some (digitsVal ip, 0, 0)
    | [ip, fp] => some (digitsVal ip, digitsVal fp, fp.length)
    | _ => none
  else none

/-- `int64(num * float64(m))` for the nonnegative decimal
`num = ip + fp / 10^k`: truncation toward zero of the product, computed
exactly.  The source computes the product in float64; the two agree on
every input appearing in the claims. -/
def sizeTimes (ip fp k m : Nat) : Int :=
  ((ip * m + fp * m / 10 ^ k : Nat) : Int)

/-- `ParseSize`: parse strings like `5MB` with 1024-based multipliers. -/
def ParseSize (sizeStr : String) : Except String Int :=
  let s := toUpperStr (trimSpace sizeStr)
  let p := spanNum s.data
  let numStr := String.mk p.1
  let unit := String.mk p.2
  if numStr = "" then
    .error ("invalid size format: " ++ s)
  else
    match parseFloatDigits p.1 with
    | none => .error ("invalid number in size: " ++ numStr)
    | some (ip, fp, k) =>
      match unit with
      | "" => .ok (sizeTimes ip fp k 1)
      | "B" => .ok (sizeTimes ip fp k 1)
      | "KB" => .ok (sizeTimes ip fp k 1024)
      | "MB" => .ok (sizeTimes ip fp k (1024 * 1024))
      | "GB" => .ok (sizeTimes ip fp k (1024 * 1024 * 1024))
      | "TB" => .ok (sizeTimes ip fp k (1024 * 1024 * 1024 * 1024))
      | _ => .error ("invalid size unit: " ++ unit ++ " (valid: B, KB, MB, GB, TB)")

end Filters

/-! ### base64 (encoding/base64 as used by exporter.decodeBase64URL and
importer.encodeBase64URL).  Bytes are naturals below 256. -/

namespace Base64

/-- The standard base64 alphabet (`base64.StdEncoding`). -/
def stdAlpha : List Char :=
  "ABCDEFGHIJKLMNOPQRSTUVWXYZabcdefghijklmnopqrstuvwxyz0123456789+/".data

/-- The URL-safe base64 alphabet (`base64.URLEncoding`). -/
def urlAlpha : List Char :=
  "ABCDEFGHIJKLMNOPQRSTUVWXYZabcdefghijklmnopqrstuvwxyz0123456789-_".data

/-- Character for a 6-bit index. -/
def encIdx (alpha : List Char) (i : Nat) : Char :=
  alpha.getD i 'A'

/-- Encode bytes three at a time into 6-bit indices (no padding). -/
def encodeChunks (alpha : List Char) : List Nat → List Char
  | b0 :: b1 :: b2 :: rest =>
    encIdx alpha (b0 / 4) :: encIdx alpha (b0 % 4 * 16 + b1 / 16) ::
    encIdx alpha (b1 % 16 * 4 + b2 / 64) :: encIdx alpha (b2 % 64) ::
    encodeChunks alpha rest
  | [b0, b1] =>
    [encIdx alpha (b0 / 4), encIdx alpha (b0 % 4 * 16 + b1 / 16),
     encIdx alpha (b1 % 16 * 4)]
  | [b0] =>
    [encIdx alpha (b0 / 4), encIdx alpha (b0 % 4 * 16)]
  | [] => []

/-- The `=` padding appended for input length `n`. -/
def padTail (n : Nat) : List Char :=
  match n % 3 with
  | 1 => ['=', '=']
  | 2 => ['=']
  | _ => []

/-- `base64.URLEncoding.EncodeToString`. -/
def urlEncodeToString (d : List Nat) : String :=
  String.mk (encodeChunks urlAlpha d ++ padTail d.length)

/-- Go `strings.TrimRight(s, "=")`. -/
def trimRightEq (s : String) : String :=
  String.mk ((s.data.reverse.dropWhile (fun c => c = '=')).reverse)

/-- importer.encodeBase64URL: URL-safe encoding with padding stripped. -/
def encodeBase64URL (d : List Nat) : String :=
  trimRightEq (urlEncodeToString d)

/-- Index of a character in the alphabet (the reverse lookup table). -/
def decIdx (alpha : List Char) (c : Char) : Option Nat :=
  alpha.findIdx? (fun a => a = c)

/-- `base64.StdEncoding.DecodeString` over the character list: quartets of
alphabet characters yield three bytes; `=` padding is accepted only at the
end (`xx==` yields one byte, `xxx=` two); a length that is not a multiple
of four, or a character outside the alphabet, is corrupt input.  (The
default Go decoder does not reject nonzero trailing bits.) -/
def stdDecodeChars : List Char → Except String (List Nat)
  | [] => .ok []
  | c0 :: c1 :: c2 :: c3 :: rest =>
    match decIdx stdAlpha c0, decIdx stdAlpha c1 with
    | some i0, some i1 =>
      if c2 = '=' then
        if c3 = '=' ∧ rest = [] then .ok [i0 * 4 + i1 / 16]
        else .error "illegal base64 data"
      else
        match decIdx stdAlpha c2 with
        | some i2 =>
          if c3 = '=' then
            if rest = [] then .ok [i0 * 4 + i1 / 16, i1 % 16 * 16 + i2 / 4]
            else .error "illegal base64 data"
          else
            match decIdx stdAlpha c3 with
            | some i3 =>
              match stdDecodeChars rest with
              | .ok bs => .ok ((i0 * 4 + i1 / 16) :: (i1 % 16 * 16 + i2 / 4) ::
                               (i2 % 4 * 64 + i3) :: bs)
              | .error e => .error e
            | none => .error "illegal base64 data"
        | none => .error "illegal base64 data"
    | _, _ => .error "illegal base64 data"
  | _ => .error "illegal base64 data"

/-- The padding-restoring switch of exporter.decodeBase64URL
(`switch len(data) % 4`); the character count equals Go's byte count on
the ASCII strings involved. -/
def restorePad (cs : List Char) : List Char :=
  match cs.length % 4 with
  | 2 => cs ++ ['=', '=']
  | 3 => cs ++ ['=']
  | _ => cs

/-- exporter.decodeBase64URL: restore `=` padding from the length mod 4,
map the URL-safe characters back to the standard alphabet
(`strings.ReplaceAll` with single-character arguments, applied in source
order), then decode with the standard decoder. -/
def decodeBase64URL (data : String) : Except String (List Nat) :=
  let padded := restorePad data.data
  let replaced :=
    (padded.map (fun c => if c = '-' then '+' else c)).map
      (fun c => if c = '_' then '/' else c)
  stdDecodeChars replaced

end Base64

/-- A successfully processed e-mail as persisted in the
`processed_emails.json` manifest.  The source declares structurally
identical `ProcessedEmail` types in the exporter and cleaner packages;
wall-clock fields (`Processed`, `Date`) and the optional `Subject`/`From`
metadata are not populated by the export path embedded here. -/
structure ProcessedEmail where
  ID : String
  Size : Int
deriving DecidableEq, Repr

/-- Go `if limit > 0 && len(xs) > limit { xs = xs[:limit] }`, shared by
export, import and cleanup. -/
def applyLimit {α : Type} (limit : Int) (xs : List α) : List α :=
  if 0 < limit ∧ limit < (xs.length : Int) then xs.take limit.toNat else xs

namespace Exporter

/-- exporter.Failure (the wall-clock `Timestamp` field is not modelled). -/
structure Failure where
  EmailID : String
  Error : String
deriving DecidableEq, Repr

/-- exporter.Result.  Counters are naturals (Go ints that only ever grow
from zero); `Duration` is not modelled. -/
structure Result where
  TotalMatched : Nat := 0
  TotalExported : Nat := 0
  TotalFailed : Nat := 0
  TotalSize : Int := 0
  Failures : List Failure := []
deriving DecidableEq, Repr

/-- exporter.exportResult: the per-item record sent on the results
channel. -/
structure ExportItemResult where
  MessageID : String
  Size : Int
  Error : Option String
deriving DecidableEq, Repr

/-- The body of exportWorker for one job: run `exportSingleEmail`
(abstracted as `handler`) and wrap the outcome.  On failure the size sent
is 0, as in every error path of the source. -/
def exportWorkerRun (handler : String → Except String Int) (id : String) :
    ExportItemResult :=
  match handler id with
  | .ok size => { MessageID := id, Size := size, Error := none }
  | .error e => { MessageID := id, Size := 0, Error := some e }

/-- The aggregation loop of exportEmails over the results channel, one
recursive step per received item: a failure increments `TotalFailed` and
records a `Failure`; a success increments `TotalExported`, adds the size
and records a `ProcessedEmail`.  The loop mutates a single accumulator in
arrival order; the recursion below produces the same counters and the same
record lists for the same arrival sequence. -/
def collectExport : List ExportItemResult → Result × List ProcessedEmail
  | [] => ({}, [])
  | r :: rs =>
    let acc := collectExport rs
    match r.Error with
    | some e =>
      ({ acc.1 with
          TotalFailed := acc.1.TotalFailed + 1,
          Failures := { EmailID := r.MessageID, Error := e } :: acc.1.Failures },
        acc.2)
    | none =>
      ({ acc.1 with
          TotalExported := acc.1.TotalExported + 1,
          TotalSize := r.Size + acc.1.TotalSize },
        { ID := r.MessageID, Size := r.Size } :: acc.2)

/-- exporter.exportEmails: process every message ID through the worker
pool and aggregate; afterwards the manifest is written only when at least
one e-mail was processed successfully (`if len(processedEmails) > 0`).
Workers complete in a nondeterministic order; the sequential order used
here is one of them, and the scalar counters are proven
permutation-invariant where a claim depends on it.  The returned option is
the manifest write: `none` means `processed_emails.json` is not touched. -/
def exportEmails (handler : String → Except String Int) (messageIDs : List String) :
    Result × Option (List ProcessedEmail) :=
  let collected := collectExport (messageIDs.map (exportWorkerRun handler))
  (collected.1, if 0 < collected.2.length then some collected.2 else none)

/-- exporter.Config (the fields the embedded pipeline consumes). -/
structure ExporterConfig where
  OutputDir : String := "exports"
  OrganizeByLabels : Bool := false
  ParallelWorkers : Int := 1
  Format : String := "eml"
  Limit : Int := 0

/-- The outcome of one export run: the returned `Result` plus the manifest
write effect. -/
structure ExportOutcome where
  result : Result
  manifest : Option (List ProcessedEmail)
deriving DecidableEq, Repr

/-- exporter.Export: validate the filter, search (the remote listing is
abstracted as `searchIDs`, the accumulated page results), truncate by the
limit, run the worker pool, then set `TotalMatched` from the length of the
(already truncated) identifier list — exactly as the source does after
`exportEmails` returns. -/
def Export (cfg : ExporterConfig) (filterConfig : Filters.Config)
    (searchIDs : List String) (handler : String → Except String Int) :
    Except String ExportOutcome :=
  match Filters.Validate filterConfig with
  | some e => .error ("invalid filter configuration: " ++ e)
  | none =>
    let messageIDs := applyLimit cfg.Limit searchIDs
    let r := exportEmails handler messageIDs
    .ok { result := { r.1 with TotalMatched := messageIDs.length },
          manifest := r.2 }

/-- exporter.getOutputPath: `<message-id>.<format>` under the output
directory, or under the first label's subdirectory (falling back to
`unlabeled`) when label organisation is on. -/
def getOutputPath (cfg : ExporterConfig) (messageId : String)
    (labelIds : List String) : String :=
  let filename := messageId ++ "." ++ cfg.Format
  if cfg.OrganizeByLabels = false then
    cfg.OutputDir ++ "/" ++ filename
  else
    let labelDir := match labelIds with
      | [] => "unlabeled"
      | l :: _ => l
    cfg.OutputDir ++ "/" ++ labelDir ++ "/" ++ filename

/-- A file written to disk: path, content bytes, permission bits. -/
structure FileWrite where
  path : String
  content : List Nat
  mode : Nat
deriving DecidableEq, Repr

/-- exporter.exportAsEML: fetch the raw message (abstracted as the
`rawGet` result, the base64url `Raw` field), decode it, write it 0600,
return the byte count. -/
def exportAsEML (rawGet : String) (outputPath : String) :
    Except String (FileWrite × Int) :=
  match Base64.decodeBase64URL rawGet with
  | .error e => .error ("failed to decode raw message: " ++ e)
  | .ok rawData =>
    .ok ({ path := outputPath, content := rawData, mode := 0o600 },
         (rawData.length : Int))

/-- exporter.exportAsMbox: the source delegates to the EML writer
unchanged ("simplified implementation"). -/
def exportAsMbox (rawGet : String) (outputPath : String) :
    Except String (FileWrite × Int) :=
  exportAsEML rawGet outputPath

end Exporter

namespace Importer

/-- importer.Failure (wall-clock `Timestamp` not modelled). -/
structure Failure where
  FilePath : String
  Error : String
deriving DecidableEq, Repr

/-- importer.Result (`Duration` not modelled). -/
structure Result where
  TotalFound : Nat := 0
  TotalImported : Nat := 0
  TotalFailed : Nat := 0
  TotalSize : Int := 0
  Failures : List Failure := []
deriving DecidableEq, Repr

/-- importer.importResult: the per-file record sent on the results
channel. -/
structure ImportItemResult where
  FilePath : String
  Size : Int
  Error : Option String
deriving DecidableEq, Repr

/-- The body of importWorker for one job (`importSingleEmail` abstracted
as `handler`). -/
def importWorkerRun (handler : String → Except String Int) (filePath : String) :
    ImportItemResult :=
  match handler filePath with
  | .ok size => { FilePath := filePath, Size := size, Error := none }
  | .error e => { FilePath := filePath, Size := 0, Error := some e }

/-- The aggregation loop of importEmails over the results channel. -/
def collectImport : List ImportItemResult → Result
  | [] => {}
  | r :: rs =>
    let acc := collectImport rs
    match r.Error with
    | some e =>
      { acc with
          TotalFailed := acc.TotalFailed + 1,
          Failures := { FilePath := r.FilePath, Error := e } :: acc.Failures }
    | none =>
      { acc with
          TotalImported := acc.TotalImported + 1,
          TotalSize := r.Size + acc.TotalSize }

/-- importer.importEmails: worker pool plus aggregation. -/
def importEmails (handler : String → Except String Int) (emailFiles : List String) :
    Result :=
  collectImport (emailFiles.map (importWorkerRun handler))

mutual

/-- A directory tree handed to `filepath.WalkDir`: a leaf file or a
directory with entries; the constructor argument is the path element. -/
inductive FileTree where
  | file (name : String)
  | dir (name : String) (entries : Forest)

/-- The ordered entries of a directory. -/
inductive Forest where
  | nil
  | cons (head : FileTree) (tail : Forest)

end

/-- Go `filepath.Ext`: the suffix starting at the final dot in the final
path element, or `""` when that element has no dot. -/
def filepathExt (path : String) : String :=
  let seg := path.data.reverse.takeWhile (fun c => c ≠ '/')
  let upto := seg.takeWhile (fun c => c ≠ '.')
  if upto.length = seg.length then ""
  else String.mk ('.' :: upto.reverse)

/-- The extension test of importer.findEmailFiles: lowercased extension is
one of the supported formats. -/
def isEmailFile (path : String) : Bool :=
  let ext := toLowerStr (filepathExt path)
  ext = ".eml" || ext = ".json" || ext = ".mbox"

mutual

/-- The WalkDir traversal of one entry: visit every file below it, with
paths joined by `/` under `parent`; directory entries themselves are
skipped (`if d.IsDir() return nil`), and a file path is collected when
the predicate `p` accepts it. -/
def walkTree (p : String → Bool) (parent : String) : FileTree → List String
  | .file n =>
    if p (parent ++ "/" ++ n) then [parent ++ "/" ++ n] else []
  | .dir n es => walkForest p (parent ++ "/" ++ n) es

/-- The WalkDir traversal of a directory's entries, in order. -/
def walkForest (p : String → Bool) (parent : String) : Forest → List String
  | .nil => []
  | .cons t ts => walkTree p parent t ++ walkForest p parent ts

end

/-- importer.findEmailFiles: walk the input directory (given as its
entries) collecting exactly the supported e-mail files. -/
def findEmailFiles (inputDir : String) (entries : Forest) : List String :=
  walkForest isEmailFile inputDir entries

/-- Every file below the input directory, in walk order. -/
def allFiles (inputDir : String) (entries : Forest) : List String :=
  walkForest (fun _ => true) inputDir entries

/-- importer.Config (the fields the embedded pipeline consumes). -/
structure ImporterConfig where
  InputDir : String := "imports"
  ParallelWorkers : Int := 1
  Limit : Int := 0

/-- importer.Import: find the e-mail files, truncate by the limit, run the
worker pool, then set `TotalFound` from the (already truncated) file list
— as the source does after `importEmails` returns. -/
def Import (cfg : ImporterConfig) (entries : Forest)
    (handler : String → Except String Int) : Result :=
  let found := findEmailFiles cfg.InputDir entries
  let emailFiles := applyLimit cfg.Limit found
  let r := importEmails handler emailFiles
  { r with TotalFound := emailFiles.length }

end Importer

namespace Cleaner

/-- cleaner.Failure (wall-clock `Timestamp` not modelled). -/
structure Failure where
  EmailID : String
  Error : String
deriving DecidableEq, Repr

/-- cleaner.Result (`Duration` not modelled). -/
structure Result where
  TotalFound : Nat := 0
  TotalProcessed : Nat := 0
  TotalFailed : Nat := 0
  Action : String := ""
  DryRun : Bool := false
  Failures : List Failure := []
deriving DecidableEq, Repr

/-- cleaner.Config (the fields the embedded pipeline consumes). -/
structure CleanerConfig where
  Action : String := "archive"
  DryRun : Bool := false
  Limit : Int := 0

/-- A call made to the remote Gmail API by the cleaner. -/
inductive APICall where
  | modifyLabels (id : String) (removeLabelIds : List String)
  | delete (id : String)
deriving DecidableEq, Repr

/-- cleaner.archiveEmail: one Modify call removing the INBOX label; a
remote failure is wrapped.  `remote` answers each call with `none`
(success) or `some err`. -/
def archiveEmail (remote : APICall → Option String) (emailID : String) :
    Option String × List APICall :=
  let call := APICall.modifyLabels emailID ["INBOX"]
  match remote call with
  | some e => (some ("failed to archive email: " ++ e), [call])
  | none => (none, [call])

/-- cleaner.deleteEmail: one Delete call; a remote failure is wrapped. -/
def deleteEmail (remote : APICall → Option String) (emailID : String) :
    Option String × List APICall :=
  let call := APICall.delete emailID
  match remote call with
  | some e => (some ("failed to delete email: " ++ e), [call])
  | none => (none, [call])

/-- cleaner.cleanupSingleEmail: under dry-run only a log line is emitted
and no remote call is made; otherwise dispatch on the action.  The second
component records every remote API call performed. -/
def cleanupSingleEmail (cfg : CleanerConfig) (remote : APICall → Option String)
    (emailID : String) : Option String × List APICall :=
  if cfg.DryRun then (none, [])
  else
    match cfg.Action with
    | "archive" => archiveEmail remote emailID
    | "delete" => deleteEmail remote emailID
    | _ => (some ("unsupported action: " ++ cfg.Action), [])

/-- cleaner.cleanupEmails: sequential loop over the records; a failure
increments `TotalFailed` and is recorded, a success increments
`TotalProcessed`. -/
def cleanupEmails (cfg : CleanerConfig) (remote : APICall → Option String) :
    List ProcessedEmail → Result × List APICall
  | [] => ({}, [])
  | r :: rs =>
    let step := cleanupSingleEmail cfg remote r.ID
    let rest := cleanupEmails cfg remote rs
    match step.1 with
    | some e =>
      ({ rest.1 with
          TotalFailed := rest.1.TotalFailed + 1,
          Failures := { EmailID := r.ID, Error := e } :: rest.1.Failures },
        step.2 ++ rest.2)
    | none =>
      ({ rest.1 with TotalProcessed := rest.1.TotalProcessed + 1 },
        step.2 ++ rest.2)

/-- cleaner.Cleanup: load the manifest (given as `manifest`), truncate by
the limit, clean up each record, then fill in `TotalFound`, `Action` and
`DryRun` from the truncated list and the configuration. -/
def Cleanup (cfg : CleanerConfig) (remote : APICall → Option String)
    (manifest : List ProcessedEmail) : Result × List APICall :=
  let records := applyLimit cfg.Limit manifest
  let r := cleanupEmails cfg remote records
  ({ r.1 with
      TotalFound := records.length,
      Action := cfg.Action,
      DryRun := cfg.DryRun },
    r.2)

end Cleaner

/-! ## Helper lemmas -/

theorem mk_eq_empty_iff (l : List Char) : String.mk l = "" ↔ l = [] := by
  constructor
  · intro h
    simpa using congrArg String.data h
  · intro h
    subst h
    rfl

/-! ## Claims about the query builder and its helpers -/

/-- C3 (corrected): `Validate` returns a descriptive error exactly when
both size bounds are positive with the minimum at least the maximum, both
date bounds are present with the after date strictly later, or a nonempty
search scope lies outside the recognised set — which is
{all_mail, inbox, sent, drafts, spam, trash}, not {all, …} as the claim
states. -/
theorem C3_validate_characterization (c : Filters.Config) :
    (Filters.Validate c).isSome ↔
      ((0 < c.SizeGreaterThan ∧ 0 < c.SizeLessThan ∧
          c.SizeLessThan ≤ c.SizeGreaterThan) ∨
        (∃ a b, c.DateAfter = some a ∧ c.DateBefore = some b ∧
          Filters.timeAfter a b = true) ∨
        (c.SearchScope ≠ "" ∧ ¬ c.SearchScope ∈ Filters.validScopes)) := by
  obtain ⟨To, From, Subject, Inc, Exc, sgt, slt, dw, dA, dB, hAtt, exCh, lbl, scope⟩ := c
  unfold Filters.Validate
  rcases dA with _ | a <;> rcases dB with _ | b <;>
    split_ifs <;> simp_all

/-- C3 counterexample: the scope `all` named by the claim is rejected by
the code, while the scope the code actually recognises is `all_mail`. -/
theorem C3_counterexample :
    (Filters.Validate { SearchScope := "all" }).isSome = true ∧
    Filters.Validate { SearchScope := "all_mail" } = none := by
  constructor <;> decide

/-- C5 (amended): for every nonempty subject the emitted clause is
`subject:(<subject>)` — the value is parenthesized unconditionally,
whether or not it contains whitespace. -/
theorem C5_subject_clause (c : Filters.Config) (h : c.Subject ≠ "") :
    ("subject:(" ++ c.Subject ++ ")") ∈ Filters.buildParts c := by
  simp [Filters.buildParts, h]

/-- C5 counterexample: a whitespace-free subject is still parenthesized,
contradicting the claim that it would be emitted without parentheses. -/
theorem C5_counterexample :
    Filters.BuildGmailQuery { Subject := "Invoice" } = "subject:(Invoice)" ∧
    Filters.BuildGmailQuery { Subject := "Invoice" } ≠ "subject:Invoice" := by
  constructor <;> decide

/-- C5 witness: the amended statement at the concrete subject `Invoice`. -/
theorem C5_witness :
    (({ Subject := "Invoice" } : Filters.Config).Subject ≠ "") ∧
    ("subject:(" ++ ({ Subject := "Invoice" } : Filters.Config).Subject ++ ")")
      ∈ Filters.buildParts { Subject := "Invoice" } :=
  ⟨by decide, C5_subject_clause { Subject := "Invoice" } (by decide)⟩

/-- C6: `ParseSize` uses 1024-based multipliers with a case-insensitive
unit (`5MB` and `5mb` both give 5242880, a bare `1024` gives 1024), and
returns an error whenever the numeric prefix is empty or unparseable or
the unit is unrecognised. -/
theorem C6_parse_size :
    Filters.ParseSize "5MB" = .ok 5242880 ∧
    Filters.ParseSize "5mb" = .ok 5242880 ∧
    Filters.ParseSize "1024" = .ok 1024 ∧
    (∀ s : String,
      ((Filters.spanNum (toUpperStr (trimSpace s)).data).1 = [] ∨
        Filters.parseFloatDigits
          (Filters.spanNum (toUpperStr (trimSpace s)).data).1 = none ∨
        ¬ String.mk (Filters.spanNum (toUpperStr (trimSpace s)).data).2 ∈
          (["", "B", "KB", "MB", "GB", "TB"] : List String)) →
      ∃ e, Filters.ParseSize s = .error e) := by
  refine ⟨by decide, by decide, by decide, fun s h => ?_⟩
  simp only [Filters.ParseSize]
  by_cases h0 : String.mk (Filters.spanNum (toUpperStr (trimSpace s)).data).1 = ""
  · rw [if_pos h0]
    exact ⟨_, rfl⟩
  · rw [if_neg h0]
    rcases hf : Filters.parseFloatDigits
        (Filters.spanNum (toUpperStr (trimSpace s)).data).1 with _ | ⟨ip, fp, k⟩
    · simp only [hf]
      exact ⟨_, rfl⟩
    · rcases h with h1 | h2 | h3
      · exact absurd ((mk_eq_empty_iff _).mpr h1) h0
      · rw [hf] at h2
        cases h2
      · simp only [hf]
        split
        · exact absurd (by simp_all) h3
        · exact absurd (by simp_all) h3
        · exact absurd (by simp_all) h3
        · exact absurd (by simp_all) h3
        · exact absurd (by simp_all) h3
        · exact absurd (by simp_all) h3
        · exact ⟨_, rfl⟩

/-- C6 witness: `ParseSize "bogus"` fails (its numeric prefix is empty). -/
theorem C6_witness : ∃ e, Filters.ParseSize "bogus" = .error e :=
  C6_parse_size.2.2.2 "bogus" (by decide)

/-! ## Worker-pool aggregation lemmas -/

theorem collectExport_counts (rs : List Exporter.ExportItemResult) :
    (Exporter.collectExport rs).1.TotalExported +
      (Exporter.collectExport rs).1.TotalFailed = rs.length := by
  induction rs with
  | nil => rfl
  | cons r rs ih =>
    simp only [Exporter.collectExport]
    rcases hE : r.Error with _ | e <;> simp <;> omega

theorem collectExport_processed_length (rs : List Exporter.ExportItemResult) :
    (Exporter.collectExport rs).2.length =
      (Exporter.collectExport rs).1.TotalExported := by
  induction rs with
  | nil => rfl
  | cons r rs ih =>
    simp only [Exporter.collectExport]
    rcases hE : r.Error with _ | e <;> simp <;> omega

theorem collectImport_counts (rs : List Importer.ImportItemResult) :
    (Importer.collectImport rs).TotalImported +
      (Importer.collectImport rs).TotalFailed = rs.length := by
  induction rs with
  | nil => rfl
  | cons r rs ih =>
    simp only [Importer.collectImport]
    rcases hE : r.Error with _ | e <;> simp <;> omega

theorem cleanupEmails_dryRun (cfg : Cleaner.CleanerConfig)
    (remote : Cleaner.APICall → Option String) (rs : List ProcessedEmail)
    (h : cfg.DryRun = true) :
    Cleaner.cleanupEmails cfg remote rs = ({ TotalProcessed := rs.length }, []) := by
  induction rs with
  | nil => rfl
  | cons r rs ih =>
    simp [Cleaner.cleanupEmails, Cleaner.cleanupSingleEmail, h, ih]

theorem applyLimit_of_nonpos {α : Type} (limit : Int) (xs : List α)
    (h : limit ≤ 0) : applyLimit limit xs = xs := by
  unfold applyLimit
  rw [if_neg (fun hc => absurd hc.1 (not_lt.mpr h))]

theorem exportEmails_manifest (handler : String → Except String Int)
    (ids : List String) :
    (((Exporter.exportEmails handler ids).1.TotalExported = 0 →
        (Exporter.exportEmails handler ids).2 = none) ∧
      (∀ l, (Exporter.exportEmails handler ids).2 = some l →
        l.length = (Exporter.exportEmails handler ids).1.TotalExported ∧
          0 < (Exporter.exportEmails handler ids).1.TotalExported)) := by
  simp only [Exporter.exportEmails]
  have hlen := collectExport_processed_length
    (ids.map (Exporter.exportWorkerRun handler))
  constructor
  · intro h0
    rw [if_neg (by omega)]
  · intro l hl
    split at hl
    · rename_i hp
      simp only [Option.some.injEq] at hl
      subst hl
      exact ⟨hlen, by omega⟩
    · cases hl

/-! ## Claims about the worker pool and the operation pipelines -/

/-- C1: in any worker completion order (any permutation of the per-item
outcomes) the aggregation yields succeeded + failed = M for a batch of M
items — for export and for import — and at the operation level
succeeded + failed equals (hence is at most) the reported matched/found
count. -/
theorem C1_worker_pool_counts :
    (∀ (handler : String → Except String Int) (messageIDs : List String)
        (outcomes : List Exporter.ExportItemResult),
      outcomes.Perm (messageIDs.map (Exporter.exportWorkerRun handler)) →
      (Exporter.collectExport outcomes).1.TotalExported +
        (Exporter.collectExport outcomes).1.TotalFailed = messageIDs.length) ∧
    (∀ (handler : String → Except String Int) (emailFiles : List String)
        (outcomes : List Importer.ImportItemResult),
      outcomes.Perm (emailFiles.map (Importer.importWorkerRun handler)) →
      (Importer.collectImport outcomes).TotalImported +
        (Importer.collectImport outcomes).TotalFailed = emailFiles.length) ∧
    (∀ (cfg : Exporter.ExporterConfig) (f : Filters.Config)
        (searchIDs : List String) (handler : String → Except String Int)
        (out : Exporter.ExportOutcome),
      Exporter.Export cfg f searchIDs handler = .ok out →
      out.result.TotalExported + out.result.TotalFailed =
        out.result.TotalMatched) ∧
    (∀ (cfg : Importer.ImporterConfig) (entries : Importer.Forest)
        (handler : String → Except String Int),
      (Importer.Import cfg entries handler).TotalImported +
        (Importer.Import cfg entries handler).TotalFailed =
        (Importer.Import cfg entries handler).TotalFound) := by
  refine ⟨?_, ?_, ?_, ?_⟩
  · intro handler ids outcomes hperm
    rw [collectExport_counts, hperm.length_eq, List.length_map]
  · intro handler files outcomes hperm
    rw [collectImport_counts, hperm.length_eq, List.length_map]
  · intro cfg f ids handler out hok
    simp only [Exporter.Export] at hok
    rcases hv : Filters.Validate f with _ | e
    · simp only [hv, Except.ok.injEq] at hok
      subst hok
      simp only [Exporter.exportEmails]
      rw [collectExport_counts, List.length_map]
    · simp [hv] at hok
  · intro cfg entries handler
    simp only [Importer.Import, Importer.importEmails]
    rw [collectImport_counts, List.length_map]

/-- C1 witness: the pool equalities at concrete batches (identity
completion order) and the pipeline equalities at concrete runs. -/
theorem C1_witness :
    ((Exporter.collectExport
        (["a", "b"].map (Exporter.exportWorkerRun (fun _ => .ok 1)))).1.TotalExported +
      (Exporter.collectExport
        (["a", "b"].map (Exporter.exportWorkerRun (fun _ => .ok 1)))).1.TotalFailed = 2) ∧
    ((Importer.collectImport
        (["f"].map (Importer.importWorkerRun (fun _ => .error "x")))).TotalImported +
      (Importer.collectImport
        (["f"].map (Importer.importWorkerRun (fun _ => .error "x")))).TotalFailed = 1) ∧
    ((⟨⟨1, 1, 0, 5, []⟩, some [⟨"a", 5⟩]⟩ :
        Exporter.ExportOutcome).result.TotalExported +
      (⟨⟨1, 1, 0, 5, []⟩, some [⟨"a", 5⟩]⟩ :
        Exporter.ExportOutcome).result.TotalFailed =
      (⟨⟨1, 1, 0, 5, []⟩, some [⟨"a", 5⟩]⟩ :
        Exporter.ExportOutcome).result.TotalMatched) ∧
    ((Importer.Import {} .nil (fun _ => .ok 1)).TotalImported +
      (Importer.Import {} .nil (fun _ => .ok 1)).TotalFailed =
      (Importer.Import {} .nil (fun _ => .ok 1)).TotalFound) :=
  ⟨C1_worker_pool_counts.1 (fun _ => .ok 1) ["a", "b"] _ (List.Perm.refl _),
   C1_worker_pool_counts.2.1 (fun _ => .error "x") ["f"] _ (List.Perm.refl _),
   C1_worker_pool_counts.2.2.1 {} {} ["a"] (fun _ => .ok 5) _ (by decide),
   C1_worker_pool_counts.2.2.2 {} .nil (fun _ => .ok 1)⟩

/-- C2 counterexample: with three matching IDs and Limit = 1 the export
reports TotalMatched = 1 — the post-limit count — not the pre-limit 3 the
claim expects (the source truncates `messageIDs` before it later sets
`TotalMatched = len(messageIDs)`). -/
theorem C2_counterexample :
    Exporter.Export { Limit := 1 } {} ["id1", "id2", "id3"] (fun _ => .ok 100) =
      .ok ⟨⟨1, 1, 0, 100, []⟩, some [⟨"id1", 100⟩]⟩ ∧
    (1 : Nat) ≠ 3 := by
  constructor <;> decide

/-- C2 (amended): the limit truncates the identifier list before
processing — in the scenario exactly one item is processed and one
manifest entry written — but TotalMatched reports the post-limit count
(1 in the scenario; in general the length of the truncated list). -/
theorem C2_total_matched_post_limit :
    (∀ out : Exporter.ExportOutcome,
      Exporter.Export { Limit := 1 } {} ["id1", "id2", "id3"]
          (fun _ => .ok 100) = .ok out →
      out.result.TotalMatched = 1 ∧
      out.result.TotalExported + out.result.TotalFailed = 1 ∧
      out.manifest = some [⟨"id1", 100⟩]) ∧
    (∀ (cfg : Exporter.ExporterConfig) (f : Filters.Config)
        (searchIDs : List String) (handler : String → Except String Int)
        (out : Exporter.ExportOutcome),
      Exporter.Export cfg f searchIDs handler = .ok out →
      out.result.TotalMatched = (applyLimit cfg.Limit searchIDs).length) := by
  constructor
  · intro out hok
    have e : Exporter.Export { Limit := 1 } {} ["id1", "id2", "id3"]
        (fun _ => .ok 100) =
        .ok ⟨⟨1, 1, 0, 100, []⟩, some [⟨"id1", 100⟩]⟩ := by decide
    rw [e] at hok
    simp only [Except.ok.injEq] at hok
    subst hok
    exact ⟨rfl, rfl, rfl⟩
  · intro cfg f ids handler out hok
    simp only [Exporter.Export] at hok
    rcases hv : Filters.Validate f with _ | e
    · simp only [hv, Except.ok.injEq] at hok
      subst hok
      rfl
    · simp [hv] at hok

/-- C2 witness: the amended statement at the scenario's concrete run. -/
theorem C2_witness :
    ((⟨⟨1, 1, 0, 100, []⟩, some [⟨"id1", 100⟩]⟩ :
        Exporter.ExportOutcome).result.TotalMatched = 1 ∧
      (⟨⟨1, 1, 0, 100, []⟩, some [⟨"id1", 100⟩]⟩ :
        Exporter.ExportOutcome).result.TotalExported +
        (⟨⟨1, 1, 0, 100, []⟩, some [⟨"id1", 100⟩]⟩ :
          Exporter.ExportOutcome).result.TotalFailed = 1 ∧
      (⟨⟨1, 1, 0, 100, []⟩, some [⟨"id1", 100⟩]⟩ :
        Exporter.ExportOutcome).manifest = some [⟨"id1", 100⟩]) ∧
    (⟨⟨1, 1, 0, 100, []⟩, some [⟨"id1", 100⟩]⟩ :
      Exporter.ExportOutcome).result.TotalMatched =
      (applyLimit ({ Limit := 1 } : Exporter.ExporterConfig).Limit
        ["id1", "id2", "id3"]).length :=
  ⟨C2_total_matched_post_limit.1 _ (by decide),
   C2_total_matched_post_limit.2 { Limit := 1 } {} ["id1", "id2", "id3"]
     (fun _ => .ok 100) _ (by decide)⟩

/-- C10: when a completed export run has zero successfully exported
items, the manifest file is not written at all (the on-disk state is left
as it was); the manifest is written only when at least one item
succeeded, and then it holds exactly one record per successfully exported
item. -/
theorem C10_manifest_write :
    ∀ (cfg : Exporter.ExporterConfig) (f : Filters.Config)
      (searchIDs : List String) (handler : String → Except String Int)
      (out : Exporter.ExportOutcome),
      Exporter.Export cfg f searchIDs handler = .ok out →
      ((out.result.TotalExported = 0 → out.manifest = none) ∧
        (∀ l, out.manifest = some l →
          l.length = out.result.TotalExported ∧
            0 < out.result.TotalExported)) := by
  intro cfg f ids handler out hok
  simp only [Exporter.Export] at hok
  rcases hv : Filters.Validate f with _ | e
  · simp only [hv, Except.ok.injEq] at hok
    subst hok
    exact exportEmails_manifest handler (applyLimit cfg.Limit ids)
  · simp [hv] at hok

/-- C10 witness: a run whose only item fails writes no manifest. -/
theorem C10_witness :
    (((⟨⟨1, 0, 1, 0, [⟨"a", "boom"⟩]⟩, none⟩ :
        Exporter.ExportOutcome).result.TotalExported = 0 →
      (⟨⟨1, 0, 1, 0, [⟨"a", "boom"⟩]⟩, none⟩ :
        Exporter.ExportOutcome).manifest = none) ∧
    (∀ l, (⟨⟨1, 0, 1, 0, [⟨"a", "boom"⟩]⟩, none⟩ :
        Exporter.ExportOutcome).manifest = some l →
      l.length = (⟨⟨1, 0, 1, 0, [⟨"a", "boom"⟩]⟩, none⟩ :
        Exporter.ExportOutcome).result.TotalExported ∧
        0 < (⟨⟨1, 0, 1, 0, [⟨"a", "boom"⟩]⟩, none⟩ :
          Exporter.ExportOutcome).result.TotalExported)) :=
  C10_manifest_write {} {} ["a"] (fun _ => .error "boom") _ (by decide)

/-- C4: under dry-run the cleanup never invokes the remote modify/delete
API — the recorded call list is empty — every processed record counts as
a success (TotalFailed = 0), and with no positive limit configured the
processed count is the full manifest length N. -/
theorem C4_dry_run_no_remote_calls :
    ∀ (cfg : Cleaner.CleanerConfig) (remote : Cleaner.APICall → Option String)
      (manifest : List ProcessedEmail),
      cfg.DryRun = true →
      ((Cleaner.Cleanup cfg remote manifest).2 = [] ∧
        (Cleaner.Cleanup cfg remote manifest).1.TotalProcessed =
          (applyLimit cfg.Limit manifest).length ∧
        (Cleaner.Cleanup cfg remote manifest).1.TotalFailed = 0 ∧
        (cfg.Limit ≤ 0 →
          (Cleaner.Cleanup cfg remote manifest).1.TotalProcessed =
            manifest.length)) := by
  intro cfg remote manifest h
  have hc := cleanupEmails_dryRun cfg remote (applyLimit cfg.Limit manifest) h
  refine ⟨?_, ?_, ?_, fun hlim => ?_⟩
  · simp [Cleaner.Cleanup, hc]
  · simp [Cleaner.Cleanup, hc]
  · simp [Cleaner.Cleanup, hc]
  · simp [Cleaner.Cleanup, applyLimit_of_nonpos _ _ hlim,
      cleanupEmails_dryRun cfg remote manifest h]

/-- C4 witness: the dry-run invariants at the scenario's concrete 2-item
manifest with action delete. -/
theorem C4_witness :
    ((Cleaner.Cleanup ⟨"delete", true, 0⟩ (fun _ => none)
        [⟨"a", 1⟩, ⟨"b", 2⟩]).2 = [] ∧
      (Cleaner.Cleanup ⟨"delete", true, 0⟩ (fun _ => none)
        [⟨"a", 1⟩, ⟨"b", 2⟩]).1.TotalProcessed =
        (applyLimit (⟨"delete", true, 0⟩ : Cleaner.CleanerConfig).Limit
          ([⟨"a", 1⟩, ⟨"b", 2⟩] : List ProcessedEmail)).length ∧
      (Cleaner.Cleanup ⟨"delete", true, 0⟩ (fun _ => none)
        [⟨"a", 1⟩, ⟨"b", 2⟩]).1.TotalFailed = 0 ∧
      ((⟨"delete", true, 0⟩ : Cleaner.CleanerConfig).Limit ≤ 0 →
        (Cleaner.Cleanup ⟨"delete", true, 0⟩ (fun _ => none)
          [⟨"a", 1⟩, ⟨"b", 2⟩]).1.TotalProcessed =
          ([⟨"a", 1⟩, ⟨"b", 2⟩] : List ProcessedEmail).length)) :=
  C4_dry_run_no_remote_calls ⟨"delete", true, 0⟩
    (fun _ => none) [⟨"a", 1⟩, ⟨"b", 2⟩] rfl

/-! ## File discovery -/

mutual

theorem walkTree_filter (p : String → Bool) :
    ∀ (t : Importer.FileTree) (parent : String),
      Importer.walkTree p parent t =
        (Importer.walkTree (fun _ => true) parent t).filter p
  | .file n, parent => by
    simp only [Importer.walkTree]
    by_cases hp : p (parent ++ "/" ++ n) <;> simp [hp, List.filter]
  | .dir n es, parent => by
    simp only [Importer.walkTree]
    exact walkForest_filter p es (parent ++ "/" ++ n)

theorem walkForest_filter (p : String → Bool) :
    ∀ (ts : Importer.Forest) (parent : String),
      Importer.walkForest p parent ts =
        (Importer.walkForest (fun _ => true) parent ts).filter p
  | .nil, parent => rfl
  | .cons t ts, parent => by
    simp only [Importer.walkForest, List.filter_append]
    rw [← walkTree_filter p t parent, ← walkForest_filter p ts parent]

end

/-- C7: the file-discovery walk collects exactly the files whose
case-insensitive extension is a supported e-mail format; for a directory
with two `.eml` files and one `.txt` file it finds the two `.eml` files,
the `.txt` file is ignored, and the import over that directory reports
TotalFound = 2 with both files imported and no failure. -/
theorem C7_find_email_files :
    (∀ (inputDir : String) (entries : Importer.Forest),
      Importer.findEmailFiles inputDir entries =
        (Importer.allFiles inputDir entries).filter Importer.isEmailFile) ∧
    (Importer.findEmailFiles "in"
        (.cons (.file "a.eml") (.cons (.file "b.eml") (.cons (.file "c.txt") .nil))) =
      ["in/a.eml", "in/b.eml"]) ∧
    (Importer.Import { InputDir := "in" }
        (.cons (.file "a.eml") (.cons (.file "b.eml") (.cons (.file "c.txt") .nil)))
        (fun _ => .ok 1) =
      ⟨2, 2, 0, 2, []⟩) := by
  refine ⟨?_, by decide, by decide⟩
  intro inputDir entries
  exact walkForest_filter Importer.isEmailFile entries inputDir

/-! ## Export formats and output paths -/

/-- C9: exporting as mbox delegates to the EML writer — identical file
content, permission bits and reported byte size for every message — so
for a fixed configuration the two formats differ only in the `.mbox`
versus `.eml` extension of the output path. -/
theorem C9_mbox_delegates_to_eml :
    (∀ (rawGet outputPath : String),
      Exporter.exportAsMbox rawGet outputPath =
        Exporter.exportAsEML rawGet outputPath) ∧
    (∀ (cfg : Exporter.ExporterConfig) (messageId : String)
        (labelIds : List String),
      ∃ stem : String,
        Exporter.getOutputPath { cfg with Format := "mbox" } messageId labelIds =
          stem ++ "mbox" ∧
        Exporter.getOutputPath { cfg with Format := "eml" } messageId labelIds =
          stem ++ "eml") := by
  refine ⟨fun rawGet outputPath => rfl, ?_⟩
  intro cfg messageId labelIds
  unfold Exporter.getOutputPath
  cases hb : cfg.OrganizeByLabels
  · exact ⟨cfg.OutputDir ++ "/" ++ (messageId ++ "."),
      by simp [hb, String.append_assoc], by simp [hb, String.append_assoc]⟩
  · rcases labelIds with _ | ⟨l, ls⟩
    · exact ⟨cfg.OutputDir ++ "/" ++ "unlabeled" ++ "/" ++ (messageId ++ "."),
        by simp [hb, String.append_assoc], by simp [hb, String.append_assoc]⟩
    · exact ⟨cfg.OutputDir ++ "/" ++ l ++ "/" ++ (messageId ++ "."),
        by simp [hb, String.append_assoc], by simp [hb, String.append_assoc]⟩

/-! ## Base64 round trip -/

theorem encIdx_ne_eq (alpha : List Char) (hne : ¬ '=' ∈ alpha) (i : Nat) :
    Base64.encIdx alpha i ≠ '=' := by
  unfold Base64.encIdx
  by_cases h : i < alpha.length
  · rw [List.getD_eq_getElem alpha 'A' h]
    intro hc
    exact hne (hc ▸ List.getElem_mem h)
  · rw [List.getD_eq_default alpha 'A' (le_of_not_lt h)]
    decide

theorem urlChunks_no_pad : ∀ (d : List Nat),
    ∀ c ∈ Base64.encodeChunks Base64.urlAlpha d, c ≠ '='
  | [] => by intro c hc; cases hc
  | [b0] => by
    intro c hc
    simp only [Base64.encodeChunks, List.mem_cons, List.not_mem_nil,
      or_false] at hc
    rcases hc with h | h <;>
      exact h ▸ encIdx_ne_eq Base64.urlAlpha (by decide) _
  | [b0, b1] => by
    intro c hc
    simp only [Base64.encodeChunks, List.mem_cons, List.not_mem_nil,
      or_false] at hc
    rcases hc with h | h | h <;>
      exact h ▸ encIdx_ne_eq Base64.urlAlpha (by decide) _
  | b0 :: b1 :: b2 :: rest => by
    intro c hc
    simp only [Base64.encodeChunks, List.mem_cons] at hc
    rcases hc with h | h | h | h | h
    · exact h ▸ encIdx_ne_eq Base64.urlAlpha (by decide) _
    · exact h ▸ encIdx_ne_eq Base64.urlAlpha (by decide) _
    · exact h ▸ encIdx_ne_eq Base64.urlAlpha (by decide) _
    · exact h ▸ encIdx_ne_eq Base64.urlAlpha (by decide) _
    · exact urlChunks_no_pad rest c h

theorem dropWhile_eq_self_of_ne (l : List Char) (h : ∀ c ∈ l, c ≠ '=') :
    l.dropWhile (fun c => c = '=') = l := by
  cases l with
  | nil => rfl
  | cons c cs =>
    have hc := h c (List.mem_cons_self c cs)
    simp [List.dropWhile_cons, hc]

theorem trimRightEq_append_pad (cs : List Char) (n : Nat)
    (h : ∀ c ∈ cs, c ≠ '=') :
    Base64.trimRightEq (String.mk (cs ++ Base64.padTail n)) = String.mk cs := by
  unfold Base64.trimRightEq
  have hds := dropWhile_eq_self_of_ne cs.reverse
    (fun c hc => h c (List.mem_reverse.mp hc))
  have h3 : n % 3 = 0 ∨ n % 3 = 1 ∨ n % 3 = 2 := by omega
  unfold Base64.padTail
  rcases h3 with h3 | h3 | h3 <;> rw [h3] <;>
    simp [List.reverse_append, List.dropWhile_cons, hds]

theorem padTail_congr {n m : Nat} (h : n % 3 = m % 3) :
    Base64.padTail n = Base64.padTail m := by
  unfold Base64.padTail
  rw [h]

theorem encodeChunks_length_mod (alpha : List Char) : ∀ (d : List Nat),
    (Base64.encodeChunks alpha d).length % 4 =
      (match d.length % 3 with | 0 => 0 | 1 => 2 | _ => 3)
  | [] => rfl
  | [b0] => rfl
  | [b0, b1] => rfl
  | b0 :: b1 :: b2 :: rest => by
    show ((Base64.encodeChunks alpha rest).length + 4) % 4 = _
    rw [Nat.add_mod_right, encodeChunks_length_mod alpha rest]
    have h2 : (b0 :: b1 :: b2 :: rest : List Nat).length % 3 =
        rest.length % 3 := by
      simp only [List.length_cons]
      omega
    rw [h2]

theorem restorePad_encodeChunks (d : List Nat) :
    Base64.restorePad (Base64.encodeChunks Base64.urlAlpha d) =
      Base64.encodeChunks Base64.urlAlpha d ++ Base64.padTail d.length := by
  have hm := encodeChunks_length_mod Base64.urlAlpha d
  have h3 : d.length % 3 = 0 ∨ d.length % 3 = 1 ∨ d.length % 3 = 2 := by omega
  unfold Base64.restorePad Base64.padTail
  rcases h3 with h3 | h3 | h3 <;> rw [h3] at hm ⊢
  · have h4 : (Base64.encodeChunks Base64.urlAlpha d).length % 4 = 0 := hm
    rw [h4]
    simp
  · have h4 : (Base64.encodeChunks Base64.urlAlpha d).length % 4 = 2 := hm
    rw [h4]
  · have h4 : (Base64.encodeChunks Base64.urlAlpha d).length % 4 = 3 := hm
    rw [h4]

theorem decIdx_encIdx : ∀ i, i < 64 →
    Base64.decIdx Base64.stdAlpha (Base64.encIdx Base64.stdAlpha i) = some i := by
  decide

theorem mapUS_encIdx : ∀ i, i < 64 →
    ((fun c => if c = '_' then '/' else c) ∘ (fun c => if c = '-' then '+' else c))
      (Base64.encIdx Base64.urlAlpha i) = Base64.encIdx Base64.stdAlpha i := by
  decide

theorem map_padTail (n : Nat) :
    (Base64.padTail n).map
      ((fun c => if c = '_' then '/' else c) ∘ (fun c => if c = '-' then '+' else c)) =
      Base64.padTail n := by
  have h3 : n % 3 = 0 ∨ n % 3 = 1 ∨ n % 3 = 2 := by omega
  unfold Base64.padTail
  rcases h3 with h3 | h3 | h3 <;> rw [h3] <;> simp

theorem map_encodeChunks : ∀ (d : List Nat), (∀ b ∈ d, b < 256) →
    (Base64.encodeChunks Base64.urlAlpha d).map
      ((fun c => if c = '_' then '/' else c) ∘ (fun c => if c = '-' then '+' else c)) =
      Base64.encodeChunks Base64.stdAlpha d
  | [], _ => rfl
  | [b0], h => by
    have hb0 : b0 < 256 := h b0 (by simp)
    simp only [Base64.encodeChunks, List.map_cons, List.map_nil]
    rw [mapUS_encIdx _ (by omega), mapUS_encIdx _ (by omega)]
  | [b0, b1], h => by
    have hb0 : b0 < 256 := h b0 (by simp)
    have hb1 : b1 < 256 := h b1 (by simp)
    simp only [Base64.encodeChunks, List.map_cons, List.map_nil]
    rw [mapUS_encIdx _ (by omega), mapUS_encIdx _ (by omega),
      mapUS_encIdx _ (by omega)]
  | b0 :: b1 :: b2 :: rest, h => by
    have hb0 : b0 < 256 := h b0 (by simp)
    have hb1 : b1 < 256 := h b1 (by simp)
    have hb2 : b2 < 256 := h b2 (by simp)
    simp only [Base64.encodeChunks, List.map_cons]
    rw [mapUS_encIdx _ (by omega), mapUS_encIdx _ (by omega),
      mapUS_encIdx _ (by omega), mapUS_encIdx _ (by omega),
      map_encodeChunks rest (fun b hb => h b (by simp [hb]))]

theorem stdDecode_encodeChunks : ∀ (d : List Nat), (∀ b ∈ d, b < 256) →
    Base64.stdDecodeChars
        (Base64.encodeChunks Base64.stdAlpha d ++ Base64.padTail d.length) =
      .ok d
  | [], _ => rfl
  | [b0], h => by
    have hb0 : b0 < 256 := h b0 (by simp)
    show Base64.stdDecodeChars
        (Base64.encIdx Base64.stdAlpha (b0 / 4) ::
          Base64.encIdx Base64.stdAlpha (b0 % 4 * 16) :: '=' :: '=' :: []) =
      .ok [b0]
    simp [Base64.stdDecodeChars,
      decIdx_encIdx _ (show b0 / 4 < 64 by omega),
      decIdx_encIdx _ (show b0 % 4 * 16 < 64 by omega)]
    omega
  | [b0, b1], h => by
    have hb0 : b0 < 256 := h b0 (by simp)
    have hb1 : b1 < 256 := h b1 (by simp)
    show Base64.stdDecodeChars
        (Base64.encIdx Base64.stdAlpha (b0 / 4) ::
          Base64.encIdx Base64.stdAlpha (b0 % 4 * 16 + b1 / 16) ::
          Base64.encIdx Base64.stdAlpha (b1 % 16 * 4) :: '=' :: []) =
      .ok [b0, b1]
    simp [Base64.stdDecodeChars,
      decIdx_encIdx _ (show b0 / 4 < 64 by omega),
      decIdx_encIdx _ (show b0 % 4 * 16 + b1 / 16 < 64 by omega),
      decIdx_encIdx _ (show b1 % 16 * 4 < 64 by omega),
      encIdx_ne_eq Base64.stdAlpha (by decide) (b1 % 16 * 4)]
    constructor <;> omega
  | b0 :: b1 :: b2 :: rest, h => by
    have hb0 : b0 < 256 := h b0 (by simp)
    have hb1 : b1 < 256 := h b1 (by simp)
    have hb2 : b2 < 256 := h b2 (by simp)
    show Base64.stdDecodeChars
        (Base64.encIdx Base64.stdAlpha (b0 / 4) ::
          Base64.encIdx Base64.stdAlpha (b0 % 4 * 16 + b1 / 16) ::
          Base64.encIdx Base64.stdAlpha (b1 % 16 * 4 + b2 / 64) ::
          Base64.encIdx Base64.stdAlpha (b2 % 64) ::
          (Base64.encodeChunks Base64.stdAlpha rest ++
            Base64.padTail (b0 :: b1 :: b2 :: rest : List Nat).length)) =
      .ok (b0 :: b1 :: b2 :: rest)
    have hpad : Base64.padTail (b0 :: b1 :: b2 :: rest : List Nat).length =
        Base64.padTail rest.length :=
      padTail_congr (by simp only [List.length_cons]; omega)
    rw [hpad]
    have ih := stdDecode_encodeChunks rest (fun b hb => h b (by simp [hb]))
    simp [Base64.stdDecodeChars,
      decIdx_encIdx _ (show b0 / 4 < 64 by omega),
      decIdx_encIdx _ (show b0 % 4 * 16 + b1 / 16 < 64 by omega),
      decIdx_encIdx _ (show b1 % 16 * 4 + b2 / 64 < 64 by omega),
      decIdx_encIdx _ (show b2 % 64 < 64 by omega),
      encIdx_ne_eq Base64.stdAlpha (by decide) (b1 % 16 * 4 + b2 / 64),
      encIdx_ne_eq Base64.stdAlpha (by decide) (b2 % 64), ih]
    refine ⟨?_, ?_, ?_⟩ <;> omega

/-- C8: for every byte sequence, decoding the importer's base64url
encoder output with the exporter's decoder returns the bytes unchanged:
the stripped `=` padding is restored from the length mod 4, the URL-safe
alphabet is mapped back to the standard one, and standard decoding
inverts the encoding. -/
theorem C8_base64url_roundtrip (d : List Nat) (h : ∀ b ∈ d, b < 256) :
    Base64.decodeBase64URL (Base64.encodeBase64URL d) = .ok d := by
  have henc : Base64.encodeBase64URL d =
      String.mk (Base64.encodeChunks Base64.urlAlpha d) := by
    unfold Base64.encodeBase64URL Base64.urlEncodeToString
    exact trimRightEq_append_pad _ _ (urlChunks_no_pad d)
  rw [henc]
  simp only [Base64.decodeBase64URL]
  rw [restorePad_encodeChunks d, List.map_map, List.map_append,
    map_encodeChunks d h, map_padTail]
  exact stdDecode_encodeChunks d h

/-- C8 witness: the round trip at the concrete bytes [72, 105, 33]. -/
theorem C8_witness :
    Base64.decodeBase64URL (Base64.encodeBase64URL [72, 105, 33]) =
      .ok [72, 105, 33] :=
  C8_base64url_roundtrip [72, 105, 33] (by decide)

end GmailExporter
